import Mathlib

/-!
Verification development for a single-file multi-user Python host bot
(`main.py`): an app registry backed by a relational store, a process
lifecycle manager (start/stop), a self-healing watcher that scans app
logs for `ModuleNotFoundError` and attempts a bounded stop/install/restart
remediation, and a quota/isolation guard at upload time.

The registry (SQLite `apps` table) is embedded as a list of `App` records;
each SQL helper of the source becomes a Lean function on that list.
Process-world effects (spawned pids, signals sent, installer invocations)
are made explicit as result fields so that theorems can speak about them.
-/

namespace HostBot

/-- The `status` column of the `apps` table takes exactly these values in
`main.py`: `'stopped'` (schema default), `'running'`, `'installing'`,
`'restarting'`, `'error'`. -/
inductive Status
  | stopped
  | running
  | installing
  | restarting
  | error
deriving DecidableEq, Repr

/-- One row of the `apps` table:
`id, user_id, chat_id, name, folder, entrypoint, pid, status, install_attempts`
(the two timestamp columns are irrelevant to every claim and omitted). -/
structure App where
  id : Nat
  userId : Nat
  chatId : Nat
  name : String
  folder : String
  entrypoint : String
  pid : Nat
  status : Status
  installAttempts : Nat
deriving DecidableEq, Repr

/-- `get_app(app_id)`: `SELECT ... FROM apps WHERE id=?` returning the first
matching row, or nothing. -/
def get_app (db : List App) (i : Nat) : Option App :=
  match db with
  | [] => none
  | a :: rest => if a.id = i then some a else get_app rest i

/-- Shared shape of the three `UPDATE apps SET ... WHERE id=?` helpers:
apply `g` to every row whose id matches. -/
def upd (db : List App) (i : Nat) (g : App → App) : List App :=
  match db with
  | [] => []
  | a :: rest => (if a.id = i then g a else a) :: upd rest i g

/-- `set_app_status(app_id, status)`: `UPDATE apps SET status=? WHERE id=?`. -/
def set_app_status (db : List App) (i : Nat) (st : Status) : List App :=
  upd db i (fun a => { a with status := st })

/-- `update_app_pid(app_id, pid, status)`:
`UPDATE apps SET pid=?, status=?, last_start=CURRENT_TIMESTAMP WHERE id=?`. -/
def update_app_pid (db : List App) (i : Nat) (pid : Nat) (st : Status) : List App :=
  upd db i (fun a => { a with pid := pid, status := st })

/-- `increment_install_attempts(app_id)`:
`UPDATE apps SET install_attempts = install_attempts + 1 WHERE id=?`. -/
def increment_install_attempts (db : List App) (i : Nat) : List App :=
  upd db i (fun a => { a with installAttempts := a.installAttempts + 1 })

/-- `add_app(user_id, chat_id, name, folder, entrypoint)`: INSERT of a fresh
row; `pid` defaults to 0, `status` to `'stopped'`, `install_attempts` to 0.
The AUTOINCREMENT id is passed in explicitly by the caller model. -/
def add_app (db : List App) (newId uid chatId : Nat)
    (name folder entrypoint : String) : List App :=
  db ++ [⟨newId, uid, chatId, name, folder, entrypoint, 0, Status.stopped, 0⟩]

/-- `list_user_apps(user_id)`: `SELECT ... FROM apps WHERE user_id=?`. -/
def list_user_apps (db : List App) (uid : Nat) : List App :=
  db.filter (fun a => a.userId == uid)

/-- `list_running_apps()`: `SELECT ... FROM apps WHERE status='running'`. -/
def list_running_apps (db : List App) : List App :=
  db.filter (fun a => a.status == Status.running)

/-- `register_user(user_id)`: `INSERT OR IGNORE INTO users`. -/
def register_user (users : List Nat) (uid : Nat) : List Nat :=
  if uid ∈ users then users else uid :: users

/-- Result of `delete_app(app_id)`: the surviving rows, whether a row was
deleted (the function's return value), and whether the best-effort log /
folder cleanup succeeded.  In the source, the `DELETE FROM apps` commit
happens first and the two cleanup blocks are wrapped in
`try: ... except Exception: pass`, so the cleanup outcome flags cannot
influence the registry outcome. -/
structure DeleteResult where
  db : List App
  deleted : Bool
  logRemoved : Bool
  folderRemoved : Bool
deriving DecidableEq, Repr

/-- `delete_app(app_id)`: fetch the row (returning `False` when absent),
delete it from the table, then best-effort remove the log file and the app
folder; `logOk` / `folderOk` model whether those filesystem actions succeed. -/
def delete_app (db : List App) (i : Nat) (logOk folderOk : Bool) : DeleteResult :=
  match get_app db i with
  | none => ⟨db, false, false, false⟩
  | some _ => ⟨db.filter (fun a => a.id != i), true, logOk, folderOk⟩

/-- `safe_name`: keep alphanumerics and `-_.`, replace every other character
by `_`, truncate to 120 characters.  (Python's `str.isalnum` is modelled by
`Char.isAlphanum`; identical on the ASCII inputs at issue.) -/
def safe_name (s : String) : String :=
  String.mk (((s.toList.map
    (fun c => if c.isAlphanum ∨ c = '-' ∨ c = '_' ∨ c = '.' then c else '_')).take 120))

end HostBot

namespace HostBot

/-! ### String scanning helpers for the watcher

Python string operations (`in`, `split`, `strip`, `splitlines`) are embedded
as structurally recursive functions on character lists so that concrete
evaluations reduce in the kernel. -/

/-- Python `pat in s` (substring containment) on character lists. -/
def containsSub (pat : List Char) : List Char → Bool
  | [] => pat.isEmpty
  | c :: rest => pat.isPrefixOf (c :: rest) || containsSub pat rest

/-- Python `pat in s` on strings. -/
def strContains (s pat : String) : Bool :=
  containsSub pat.toList s.toList

/-- Python `s.split(sep)` for a single-character separator. -/
def splitOnChar (sep : Char) : List Char → List (List Char)
  | [] => [[]]
  | c :: rest =>
    if c = sep then [] :: splitOnChar sep rest
    else
      match splitOnChar sep rest with
      | [] => [[c]]
      | h :: t => (c :: h) :: t

/-- Python `s.split(sep)` for a multi-character separator (non-overlapping,
left to right).  Fuel-based recursion; with `fuel ≥ length` it cuts at every
occurrence, exactly as Python does for a nonempty separator. -/
def splitOnStrAux (sep : List Char) : Nat → List Char → List Char → List (List Char)
  | _, [], acc => [acc.reverse]
  | 0, l, acc => [acc.reverse ++ l]
  | fuel + 1, c :: rest, acc =>
    if sep.isPrefixOf (c :: rest) then
      acc.reverse :: splitOnStrAux sep fuel (List.drop sep.length (c :: rest)) []
    else
      splitOnStrAux sep fuel rest (c :: acc)

/-- Python `s.split(sep)` for a nonempty separator string. -/
def splitOnStr (sep l : List Char) : List (List Char) :=
  splitOnStrAux sep l.length l []

/-- Python `s.strip(chars)`: remove any of `cs` from both ends. -/
def stripChars (cs : List Char) (l : List Char) : List Char :=
  ((l.dropWhile (fun c => cs.contains c)).reverse.dropWhile
    (fun c => cs.contains c)).reverse

/-- Python `s.strip()`: remove whitespace from both ends. -/
def stripWs (l : List Char) : List Char :=
  ((l.dropWhile Char.isWhitespace).reverse.dropWhile Char.isWhitespace).reverse

def mnfePat : List Char := "ModuleNotFoundError".toList

def nmnPat : List Char := "No module named".toList

/-- The package-name extraction loop of `scan_logs_for_missing_modules`:

```
for line in txt.splitlines()[::-1]:
    if "ModuleNotFoundError" in line and "No module named" in line:
        if "'" in line:
            pkg = line.split("'")[1]; break
    if "No module named" in line:
        parts = line.split("No module named")
        if len(parts) > 1:
            candidate = parts[1].strip().strip(" '\x22")
            pkg = candidate.split(".")[0]; break
```

Lines are scanned from the most recent backward; per line the quoted form of
a full `ModuleNotFoundError` message takes precedence; otherwise the token
after `No module named` is stripped and cut at the first `.`.
(`splitlines` is modelled as splitting on the newline character; the log text
at issue is newline-separated.) -/
def extract_pkg_lines : List (List Char) → Option String
  | [] => none
  | line :: rest =>
    if containsSub mnfePat line ∧ containsSub nmnPat line ∧ containsSub ['\''] line then
      some (String.mk ((splitOnChar '\'' line).getD 1 []))
    else if containsSub nmnPat line then
      match (splitOnStr nmnPat line).get? 1 with
      | some part =>
        some (String.mk ((splitOnChar '.'
          (stripChars [' ', '\'', '\x22'] (stripWs part))).getD 0 []))
      | none => extract_pkg_lines rest
    else
      extract_pkg_lines rest

/-- Extraction over a whole log window. -/
def extract_pkg (txt : String) : Option String :=
  extract_pkg_lines ((splitOnChar '\n' txt.toList).reverse)

end HostBot

namespace HostBot

/-! ### Handlers

Each bot handler of `main.py` becomes a function from the registry (plus
oracle parameters for I/O outcomes) to a result carrying the updated
registry and the externally visible effects: pids signalled with SIGTERM,
pids spawned, installer invocations. -/

/-- The ownership guard appearing verbatim in each handler:
`if app[1] != uid and uid not in ADMIN_IDS: return` — i.e. the handler
proceeds iff the caller owns the app or is an administrator. -/
def authorized (admins : List Nat) (app : App) (caller : Nat) : Prop :=
  app.userId = caller ∨ caller ∈ admins

instance (admins : List Nat) (app : App) (caller : Nat) :
    Decidable (authorized admins app caller) := by
  unfold authorized; infer_instance

/-- Result of `cmd_stop` / `cb_stop_cb`: updated registry and the pids the
handler signalled via `stop_process`. -/
structure StopResult where
  db : List App
  signals : List Nat
deriving DecidableEq, Repr

/-- `/stop <id>` (`cmd_stop`, identical registry logic in `cb_stop_cb`):
fetch the app; refuse on missing row or failed ownership check; if the
recorded pid is positive, signal it, then `set_app_status(id,'stopped')`
followed by `update_app_pid(id, 0, 'stopped')`; otherwise only
`set_app_status(id,'stopped')`.  Signal-delivery failures inside
`stop_process` are swallowed, so no error can escape. -/
def cmd_stop (admins : List Nat) (db : List App) (caller i : Nat) : StopResult :=
  match get_app db i with
  | none => ⟨db, []⟩
  | some app =>
    if authorized admins app caller then
      if 0 < app.pid then
        ⟨update_app_pid (set_app_status db i Status.stopped) i 0 Status.stopped, [app.pid]⟩
      else
        ⟨set_app_status db i Status.stopped, []⟩
    else ⟨db, []⟩

/-- Result of `cb_start`: updated registry and the pids spawned. -/
structure StartResult where
  db : List App
  spawned : List Nat
deriving DecidableEq, Repr

/-- The `start:` callback (`cb_start`): fetch, ownership check, then —
with no check of the current status or pid — `start_process` and on success
`update_app_pid(id, newPid, 'running')`, on failure
`set_app_status(id, 'error')`.  `startOk` is the spawn outcome, `freshPid`
the pid of the new process. -/
def cb_start (admins : List Nat) (db : List App) (caller i freshPid : Nat)
    (startOk : Bool) : StartResult :=
  match get_app db i with
  | none => ⟨db, []⟩
  | some app =>
    if authorized admins app caller then
      if startOk then ⟨update_app_pid db i freshPid Status.running, [freshPid]⟩
      else ⟨set_app_status db i Status.error, []⟩
    else ⟨db, []⟩

def appLogTailChars : Nat := 3500

/-- Python `txt[-n:]` when `len(txt) > n`, else `txt`. -/
def logTail (n : Nat) (t : String) : String :=
  if n < t.toList.length then String.mk (t.toList.drop (t.toList.length - n)) else t

/-- `/logs <id>` (`cmd_logs`, same guard in `cb_logs_cb`): fetch, ownership
check, then return the trailing window of the log content; `content` is the
log file's text, `none` when the file does not exist.  No registry mutation. -/
def cmd_logs (admins : List Nat) (db : List App) (caller i : Nat)
    (content : Option String) : Option String :=
  match get_app db i with
  | none => none
  | some app =>
    if authorized admins app caller then
      match content with
      | none => none
      | some t => some (logTail appLogTailChars t)
    else none

/-- The `info:` callback (`cb_info`): fetch, ownership check, then report the
recorded pid and status.  No registry mutation. -/
def cb_info (admins : List Nat) (db : List App) (caller i : Nat) :
    Option (Nat × Status) :=
  match get_app db i with
  | none => none
  | some app =>
    if authorized admins app caller then some (app.pid, app.status) else none

/-- Result of the `delete:` callback. -/
structure CbDeleteResult where
  db : List App
  signals : List Nat
  deleted : Bool
deriving DecidableEq, Repr

/-- The `delete:` callback (`cb_delete`): fetch, ownership check, signal the
recorded pid when positive, then `delete_app`. -/
def cb_delete (admins : List Nat) (db : List App) (caller i : Nat)
    (logOk folderOk : Bool) : CbDeleteResult :=
  match get_app db i with
  | none => ⟨db, [], false⟩
  | some app =>
    if authorized admins app caller then
      let sigs := if 0 < app.pid then [app.pid] else []
      let d := delete_app db i logOk folderOk
      ⟨d.db, sigs, d.deleted⟩
    else ⟨db, [], false⟩

/-- Result of one iteration of the watcher loop body for one app. -/
structure ScanResult where
  db : List App
  signals : List Nat
  installs : List String
  spawned : List Nat
deriving DecidableEq, Repr

/-- One iteration of the loop body of `scan_logs_for_missing_modules` for a
single app drawn from `list_running_apps`.  `pidLocal` is the pid column the
loop read from that listing, `txt` the trailing log window
(`read_text()[-4000:]`), `pipOk` the installer outcome, `startOk` the
restart-spawn outcome, `freshPid` the restarted process's pid.

Source sequence: signature check on the window; re-fetch the row; skip when
`install_attempts >= MODULE_INSTALL_RETRIES`; extract the package name
(skip when falsy); notify (fire-and-forget); if `pidLocal > 0` signal it and
set `'installing'`; increment the attempt counter; run the installer; on
success set `'restarting'`, re-spawn and on success record the fresh pid as
`'running'`, else `'error'`; on installer failure set `'error'`. -/
def scan_app (retries : Nat) (db : List App) (i pidLocal : Nat) (txt : String)
    (pipOk startOk : Bool) (freshPid : Nat) : ScanResult :=
  if strContains txt "ModuleNotFoundError" || strContains txt "No module named" then
    match get_app db i with
    | none => ⟨db, [], [], []⟩
    | some app =>
      if retries ≤ app.installAttempts then ⟨db, [], [], []⟩
      else
        match extract_pkg txt with
        | none => ⟨db, [], [], []⟩
        | some pkg =>
          if pkg = "" then ⟨db, [], [], []⟩
          else
            let stopped := 0 < pidLocal
            let db1 := if stopped then set_app_status db i Status.installing else db
            let sigs := if stopped then [pidLocal] else []
            let db2 := increment_install_attempts db1 i
            if pipOk then
              let db3 := set_app_status db2 i Status.restarting
              if startOk then
                ⟨update_app_pid db3 i freshPid Status.running, sigs, [pkg], [freshPid]⟩
              else ⟨set_app_status db3 i Status.error, sigs, [pkg], []⟩
            else ⟨set_app_status db2 i Status.error, sigs, [pkg], []⟩
  else ⟨db, [], [], []⟩

/-- `handle_upload` registry outcome.  `resolved` abstracts the entry-point
resolution of the source (`.py` upload: the file name itself; `.zip` upload:
the first `.py` inside the archive; anything else or a `.py`-less archive:
nothing) — archive contents live outside the registry model.  Sequence:
`register_user`; reject when the owner already has `MAX_APPS_PER_USER` apps;
reject (file saved, no record) when no entry point resolves; `add_app`;
spawn; on success `update_app_pid(id, pid, 'running')`, on failure
`set_app_status(id, 'error')`. -/
structure UploadResult where
  db : List App
  users : List Nat
  spawned : List Nat
deriving DecidableEq, Repr

def handle_upload (maxApps : Nat) (db : List App) (users : List Nat)
    (uid chatId : Nat) (fname : String) (resolved : Option String)
    (newId freshPid : Nat) (startOk : Bool) : UploadResult :=
  let users1 := register_user users uid
  if maxApps ≤ (list_user_apps db uid).length then ⟨db, users1, []⟩
  else
    match resolved with
    | none => ⟨db, users1, []⟩
    | some entry =>
      let db1 := add_app db newId uid chatId (safe_name fname)
        ("users/" ++ toString uid ++ "/app_" ++ safe_name fname) entry
      if startOk then
        ⟨update_app_pid db1 newId freshPid Status.running, users1, [freshPid]⟩
      else ⟨set_app_status db1 newId Status.error, users1, []⟩

end HostBot

namespace HostBot

/-! ### Whole-system operational model

The public operations (upload, panel start, stop, delete, one watcher
iteration for one app) as a step function over a system state that also
tracks the set of live spawned pids, so invariants can be stated over every
state reachable from the initial (empty) registry. -/

structure Config where
  maxApps : Nat
  retries : Nat
  admins : List Nat
deriving DecidableEq, Repr

structure Sys where
  db : List App
  users : List Nat
  live : List Nat
  nextPid : Nat
  nextId : Nat
deriving DecidableEq, Repr

/-- The public operations.  Oracle parameters carry I/O outcomes: `resolved`
the entry-point resolution, `startOk` spawn success, `txt` the log window the
watcher read, `pipOk` installer success, `logOk`/`folderOk` cleanup success. -/
inductive Op
  | upload (uid chatId : Nat) (fname : String) (resolved : Option String) (startOk : Bool)
  | start (i caller : Nat) (startOk : Bool)
  | stop (i caller : Nat)
  | delete (i caller : Nat) (logOk folderOk : Bool)
  | scan (i : Nat) (txt : String) (pipOk startOk : Bool)
deriving DecidableEq, Repr

/-- One public operation.  Spawns take the next fresh pid; SIGTERM removes
the signalled pid from the live set (process-group kill). -/
def step (cfg : Config) (s : Sys) (op : Op) : Sys :=
  match op with
  | Op.upload uid chatId fname resolved startOk =>
    let r := handle_upload cfg.maxApps s.db s.users uid chatId fname resolved
      s.nextId s.nextPid startOk
    { db := r.db, users := r.users,
      live := s.live ++ r.spawned,
      nextPid := if r.spawned.isEmpty then s.nextPid else s.nextPid + 1,
      nextId := match resolved with
        | none => s.nextId
        | some _ => if cfg.maxApps ≤ (list_user_apps s.db uid).length then s.nextId
                    else s.nextId + 1 }
  | Op.start i caller startOk =>
    let r := cb_start cfg.admins s.db caller i s.nextPid startOk
    { s with db := r.db,
             live := s.live ++ r.spawned,
             nextPid := if r.spawned.isEmpty then s.nextPid else s.nextPid + 1 }
  | Op.stop i caller =>
    let r := cmd_stop cfg.admins s.db caller i
    { s with db := r.db,
             live := s.live.filter (fun p => p ∉ r.signals) }
  | Op.delete i caller logOk folderOk =>
    let r := cb_delete cfg.admins s.db caller i logOk folderOk
    { s with db := r.db,
             live := s.live.filter (fun p => p ∉ r.signals) }
  | Op.scan i txt pipOk startOk =>
    match get_app s.db i with
    | none => s
    | some app =>
      if app.status = Status.running then
        let r := scan_app cfg.retries s.db i app.pid txt pipOk startOk s.nextPid
        { s with db := r.db,
                 live := (s.live.filter (fun p => p ∉ r.signals)) ++ r.spawned,
                 nextPid := if r.spawned.isEmpty then s.nextPid else s.nextPid + 1 }
      else s

/-- Empty registry; SQLite AUTOINCREMENT ids and OS pids start at 1. -/
def initSys : Sys := ⟨[], [], [], 1, 1⟩

/-- Run a sequence of public operations from the initial state. -/
def run (cfg : Config) (ops : List Op) : Sys :=
  ops.foldl (step cfg) initSys

end HostBot

namespace HostBot

/-! ### Filesystem path model for upload isolation

Paths are component lists.  `handle_upload` builds
`user_folder = USERS_DIR / str(uid) / f"app_{timestamp}_{safe}"` from the
sanitized name, but saves the document to `user_folder / fname` with the raw
file name; `resolvePath` models the OS resolution of `.` and `..` when that
path is opened. -/

/-- Split a raw path string on `/`, dropping empty components. -/
def splitPath (s : String) : List String :=
  (splitOnChar '/' s.toList).filterMap
    (fun cs => if cs.isEmpty then none else some (String.mk cs))

/-- Resolve one component against an absolute path: `..` pops, `.` is a
no-op, anything else descends. -/
def resolveComp (acc : List String) (c : String) : List String :=
  if c = ".." then acc.dropLast else if c = "." then acc else acc ++ [c]

/-- OS-level resolution of a component list (absolute, rooted at `/`). -/
def resolvePath (comps : List String) : List String :=
  comps.foldl resolveComp []

/-- `USERS_DIR = BASE_DIR / "users"` with the default `/tmp/hostbot` base. -/
def usersDirComps : List String := ["tmp", "hostbot", "users"]

/-- The owner's exclusive subtree, `USERS_DIR / str(uid)`. -/
def userSubtree (uid : Nat) : List String := usersDirComps ++ [toString uid]

/-- `user_folder = USERS_DIR / str(uid) / f"app_{timestamp}_{safe_name(fname)}"`. -/
def upload_user_folder (uid ts : Nat) (fname : String) : List String :=
  userSubtree uid ++ ["app_" ++ toString ts ++ "_" ++ safe_name fname]

/-- `saved_path = user_folder / fname` — the raw, unsanitized file name. -/
def upload_saved_path (uid ts : Nat) (fname : String) : List String :=
  upload_user_folder uid ts fname ++ splitPath fname

/-- Path `p` stays inside subtree `base` after resolution. -/
def inSubtree (base p : List String) : Bool :=
  base.isPrefixOf (resolvePath p)

end HostBot

namespace HostBot.Race

/-! ### Interleaving model for a concurrent stop and a watcher remediation

`main.py` runs on a single-threaded cooperative event loop: synchronous
blocks are atomic and interleaving happens only at `await` points.  The
`/stop` handler reads and writes the registry in one synchronous block; the
watcher's remediation of one app has `await` points after the notify, around
the installer call, and during the pre-restart pause, cutting it into the
atomic segments modelled below.  `pidLocal` is the pid the watcher read when
it listed the app — possibly stale by the time a segment runs. -/

open HostBot

/-- Registry row under contention, plus the set of live process pids. -/
structure Reg where
  pid : Nat
  status : Status
  attempts : Nat
deriving DecidableEq, Repr

structure World where
  reg : Reg
  live : List Nat
deriving DecidableEq, Repr

/-- `stop_process`: SIGTERM to the process group; signalling an already-dead
pid is swallowed, so this is removal from the live set. -/
def kill (w : World) (p : Nat) : World :=
  { w with live := w.live.filter (fun q => q != p) }

/-- The `/stop` handler as one atomic block: read the recorded pid; if
positive, signal it and set `(pid, status) := (0, stopped)`; else only set
the status. -/
def stopOp (w : World) : World :=
  if 0 < w.reg.pid then
    { reg := ⟨0, Status.stopped, w.reg.attempts⟩,
      live := w.live.filter (fun q => q != w.reg.pid) }
  else { w with reg := { w.reg with status := Status.stopped } }

/-- Watcher segment: `if pid and pid>0: stop_process(pid);
set_app_status('installing')` then `increment_install_attempts` —
everything between the notify `await` and the installer `await`. -/
def segStopInstall (w : World) (pidLocal : Nat) : World :=
  let w1 := if 0 < pidLocal then
    { kill w pidLocal with reg := { w.reg with status := Status.installing } }
  else w
  { w1 with reg := { w1.reg with attempts := w1.reg.attempts + 1 } }

/-- Watcher segment on installer success: `set_app_status('restarting')`,
before the pre-restart sleep. -/
def segRestarting (w : World) : World :=
  { w with reg := { w.reg with status := Status.restarting } }

/-- Watcher segment after the sleep: `start_process`; on success record the
fresh pid as running, on failure set error. -/
def segStart (w : World) (fresh : Nat) (startOk : Bool) : World :=
  if startOk then ⟨⟨fresh, Status.running, w.reg.attempts⟩, fresh :: w.live⟩
  else { w with reg := { w.reg with status := Status.error } }

/-- Watcher segment on installer failure: `set_app_status('error')`. -/
def segError (w : World) : World :=
  { w with reg := { w.reg with status := Status.error } }

/-- The watcher remediation run to completion with no interleaved stop. -/
def remediate (w : World) (pidLocal fresh : Nat) (pipOk startOk : Bool) : World :=
  let w1 := segStopInstall w pidLocal
  if pipOk then segStart (segRestarting w1) fresh startOk else segError w1

/-- One watcher remediation with one `/stop` interleaved at cooperative
yield position `pos`: 0 = before the stop/install segment (right after the
app was listed), 1 = during the installer call, 2 = during the pre-restart
sleep (after `'restarting'`, installer success) or after the error write
(installer failure), 3 = after the final segment. -/
def runInterleave (w : World) (pidLocal fresh : Nat) (pos : Nat)
    (pipOk startOk : Bool) : World :=
  let w0 := if pos = 0 then stopOp w else w
  let w1 := segStopInstall w0 pidLocal
  let w2 := if pos = 1 then stopOp w1 else w1
  if pipOk then
    let w3 := segRestarting w2
    let w4 := if pos = 2 then stopOp w3 else w3
    let w5 := segStart w4 fresh startOk
    if 3 ≤ pos then stopOp w5 else w5
  else
    let w3 := segError w2
    if 2 ≤ pos then stopOp w3 else w3

/-- The final registry value matches the process world: a positive recorded
pid belongs to a live process, `stopped` records pid 0, and `running`
records a positive pid. -/
def Consistent (w : World) : Prop :=
  (0 < w.reg.pid → w.reg.pid ∈ w.live)
  ∧ (w.reg.status = Status.stopped → w.reg.pid = 0)
  ∧ (w.reg.status = Status.running → 0 < w.reg.pid)

instance (w : World) : Decidable (Consistent w) := by
  unfold Consistent; infer_instance

/-- Initial contention scene: the app is recorded running with live pid 1
and attempt counter 0; the watcher listed it with pid 1; the restarted
process would get pid 2. -/
def raceInit : World := ⟨⟨1, Status.running, 0⟩, [1]⟩

end HostBot.Race

namespace HostBot

/-! ### Concrete fixtures used by closed counterexamples and witnesses -/

/-- Default-flavoured configuration: `MAX_APPS_PER_USER = 6`,
`MODULE_INSTALL_RETRIES = 1`, no administrators. -/
def cfgSix : Config := ⟨6, 1, []⟩

/-- Tight-quota configuration: `MAX_APPS_PER_USER = 1`. -/
def cfgOne : Config := ⟨1, 1, []⟩

/-- A representative trailing log window containing the line
`ModuleNotFoundError: No module named 'widgets'`. -/
def widgetsLog : String :=
  "Traceback (most recent call last):\n  File \"main.py\", line 5, in <module>\nModuleNotFoundError: No module named 'widgets'"

/-- Upload one `.py` app for user 7 (spawn succeeds). -/
def uploadOp : Op := Op.upload 7 7 "bot.py" (some "bot.py") true

/-- The registry row produced by `uploadOp` from the initial state. -/
def appW : App :=
  ⟨1, 7, 7, "bot.py", "users/7/app_bot.py", "bot.py", 1, Status.running, 0⟩

/-- Upload, then one watcher pass over `widgetsLog` in which the installer
fails: the watcher signals the process, sets `installing`, increments the
counter, and on installer failure sets `error` — without clearing the pid. -/
def cexOps : List Op := [uploadOp, Op.scan 1 widgetsLog false true]

/-- Registry row for witnesses: app 1 of user 7, running with pid 5. -/
def appRun : App :=
  ⟨1, 7, 7, "bot", "users/7/app_bot", "bot.py", 5, Status.running, 0⟩

/-- Registry row for witnesses: app 2 of user 9, stopped. -/
def appStopped : App :=
  ⟨2, 9, 9, "other", "users/9/app_other", "other.py", 0, Status.stopped, 0⟩

/-- A two-row registry for witnesses. -/
def dbW : List App := [appRun, appStopped]

/-- A state carrying `dbW`, for witnesses of the step-level theorems. -/
def sysW : Sys := ⟨dbW, [7, 9], [5], 6, 3⟩

end HostBot
namespace HostBot

/-! ### Registry lemmas -/

theorem get_app_upd (db : List App) (j i : Nat) (g : App → App)
    (hg : ∀ a, (g a).id = a.id) :
    get_app (upd db j g) i = (get_app db i).map (fun a => if a.id = j then g a else a) := by
  induction db with
  | nil => rfl
  | cons a rest ih =>
    have hid : (if a.id = j then g a else a).id = a.id := by
      by_cases hj : a.id = j <;> simp [hj, hg]
    show (if (if a.id = j then g a else a).id = i then some (if a.id = j then g a else a)
          else get_app (upd rest j g) i)
        = ((if a.id = i then some a else get_app rest i).map
            (fun a => if a.id = j then g a else a))
    rw [hid]
    by_cases hi : a.id = i
    · rw [if_pos hi, if_pos hi]
      rfl
    · rw [if_neg hi, if_neg hi]
      exact ih

theorem mem_upd (db : List App) (j : Nat) (g : App → App) (b : App)
    (hb : b ∈ upd db j g) : ∃ a ∈ db, b = if a.id = j then g a else a := by
  induction db with
  | nil => simp [upd] at hb
  | cons a rest ih =>
    simp only [upd, List.mem_cons] at hb
    rcases hb with hb | hb
    · exact ⟨a, List.mem_cons_self a rest, hb⟩
    · obtain ⟨a', ha', hb'⟩ := ih hb
      exact ⟨a', List.mem_cons_of_mem a ha', hb'⟩

theorem ids_upd (db : List App) (j : Nat) (g : App → App)
    (hg : ∀ a, (g a).id = a.id) :
    (upd db j g).map (fun a => a.id) = db.map (fun a => a.id) := by
  induction db with
  | nil => rfl
  | cons a rest ih =>
    by_cases hj : a.id = j <;> simp [upd, hj, hg, ih]

theorem get_app_mem (db : List App) (i : Nat) (a : App)
    (h : get_app db i = some a) : a ∈ db ∧ a.id = i := by
  induction db with
  | nil => simp [get_app] at h
  | cons b rest ih =>
    by_cases hb : b.id = i
    · simp [get_app, hb] at h
      exact ⟨by simp [← h], h ▸ hb⟩
    · simp [get_app, hb] at h
      obtain ⟨h1, h2⟩ := ih h
      exact ⟨List.mem_cons_of_mem b h1, h2⟩

theorem get_app_eq_none (db : List App) (i : Nat)
    (h : ∀ a ∈ db, a.id ≠ i) : get_app db i = none := by
  induction db with
  | nil => rfl
  | cons b rest ih =>
    have hb := h b (List.mem_cons_self b rest)
    simp [get_app, hb]
    exact ih (fun a ha => h a (List.mem_cons_of_mem b ha))

theorem get_app_append (db l2 : List App) (i : Nat) :
    get_app (db ++ l2) i =
      match get_app db i with
      | some a => some a
      | none => get_app l2 i := by
  induction db with
  | nil => rfl
  | cons b rest ih =>
    by_cases hb : b.id = i <;> simp [get_app, hb, ih]

theorem get_app_filter_ne (db : List App) (i : Nat) :
    get_app (db.filter (fun a => a.id != i)) i = none := by
  apply get_app_eq_none
  intro a ha
  have := (List.mem_filter.mp ha).2
  simpa using this

theorem get_app_filter_of_ne (db : List App) (i j : Nat) (hij : i ≠ j) :
    get_app (db.filter (fun a => a.id != j)) i = get_app db i := by
  induction db with
  | nil => rfl
  | cons b rest ih =>
    by_cases hbj : b.id = j
    · have hcond : (b.id != j) = false := by simp [hbj]
      have hbi : ¬ b.id = i := by rw [hbj]; exact fun h => hij h.symm
      rw [List.filter_cons_of_neg (by simp [hcond]), ih]
      simp [get_app, hbi]
    · have hcond : (b.id != j) = true := by simp [hbj]
      rw [List.filter_cons_of_pos (by simp [hcond])]
      by_cases hbi : b.id = i <;> simp [get_app, hbi, ih]

/-- With duplicate-free ids, any member carrying the looked-up id is the
looked-up row. -/
theorem mem_id_unique (db : List App) (i : Nat) (a b : App)
    (hnd : (db.map (fun x => x.id)).Nodup)
    (h : get_app db i = some a) (hb : b ∈ db) (hbi : b.id = i) : b = a := by
  induction db with
  | nil => simp [get_app] at h
  | cons c rest ih =>
    simp only [List.map_cons, List.nodup_cons] at hnd
    by_cases hc : c.id = i
    · simp [get_app, hc] at h
      rcases List.mem_cons.mp hb with hbc | hbr
      · rw [hbc, h]
      · exfalso
        apply hnd.1
        have hmem : b.id ∈ rest.map (fun x => x.id) := List.mem_map.mpr ⟨b, hbr, rfl⟩
        rwa [hbi, ← hc] at hmem
    · simp [get_app, hc] at h
      rcases List.mem_cons.mp hb with hbc | hbr
      · exact absurd (hbc ▸ hbi) hc
      · exact ih hnd.2 h hbr

/-! ### Registry invariant over reachable states -/

/-- Per-row part of the registry invariant: a row recorded `stopped` records
pid 0.  Over the five status values this is equivalent to: a positive pid
implies status running, installing, restarting or error. -/
def rowOk (a : App) : Prop := a.status = Status.stopped → a.pid = 0

/-- System invariant: ids are bounded by the id counter and duplicate-free,
and every row satisfies `rowOk`. -/
def Inv (s : Sys) : Prop :=
  (∀ a ∈ s.db, a.id < s.nextId ∧ rowOk a) ∧ (s.db.map (fun a => a.id)).Nodup

instance (s : Sys) : Decidable (Inv s) := by
  unfold Inv rowOk; infer_instance

end HostBot

namespace HostBot

/-- Updating twice at the same id collapses to one update with the composed
row transform (the transforms preserve ids). -/
theorem upd_upd (db : List App) (j : Nat) (g1 g2 : App → App)
    (hg1 : ∀ a, (g1 a).id = a.id) :
    upd (upd db j g1) j g2 = upd db j (fun a => g2 (g1 a)) := by
  induction db with
  | nil => rfl
  | cons a rest ih =>
    by_cases haj : a.id = j
    · simp [upd, haj, hg1, ih]
    · simp [upd, haj, ih]

/-- Registry part of the invariant, parameterized by the id bound. -/
def DbInv (db : List App) (n : Nat) : Prop :=
  (∀ a ∈ db, a.id < n ∧ rowOk a) ∧ (db.map (fun a => a.id)).Nodup

theorem inv_iff_dbinv (s : Sys) : Inv s ↔ DbInv s.db s.nextId := Iff.rfl

theorem dbinv_upd_of (db : List App) (n j : Nat) (g : App → App)
    (hg_id : ∀ a, (g a).id = a.id)
    (hg_ok : ∀ a ∈ db, a.id = j → rowOk (g a))
    (h : DbInv db n) : DbInv (upd db j g) n := by
  constructor
  · intro b hb
    obtain ⟨a, ha, hb_eq⟩ := mem_upd db j g b hb
    by_cases haj : a.id = j
    · rw [hb_eq, if_pos haj]
      exact ⟨by rw [hg_id]; exact (h.1 a ha).1, hg_ok a ha haj⟩
    · rw [hb_eq, if_neg haj]
      exact h.1 a ha
  · rw [ids_upd db j g hg_id]
    exact h.2

theorem dbinv_filter (db : List App) (n : Nat) (q : App → Bool)
    (h : DbInv db n) : DbInv (db.filter q) n := by
  constructor
  · intro a ha
    exact h.1 a (List.mem_of_mem_filter ha)
  · exact h.2.sublist (List.Sublist.map _ (List.filter_sublist db))

theorem dbinv_mono (db : List App) (n m : Nat) (hnm : n ≤ m)
    (h : DbInv db n) : DbInv db m :=
  ⟨fun a ha => ⟨Nat.lt_of_lt_of_le (h.1 a ha).1 hnm, (h.1 a ha).2⟩, h.2⟩

theorem dbinv_append_new (db : List App) (n : Nat) (b : App)
    (hbid : b.id = n) (hbok : rowOk b)
    (h : DbInv db n) : DbInv (db ++ [b]) (n + 1) := by
  constructor
  · intro a ha
    rcases List.mem_append.mp ha with ha | ha
    · exact ⟨Nat.lt_succ_of_lt (h.1 a ha).1, (h.1 a ha).2⟩
    · rw [List.mem_singleton.mp ha]
      exact ⟨by rw [hbid]; exact Nat.lt_succ_self n, hbok⟩
  · rw [List.map_append]
    rw [List.nodup_append]
    refine ⟨h.2, List.nodup_singleton _, ?_⟩
    intro x hx
    simp only [List.map_cons, List.map_nil, List.mem_singleton]
    intro hxb
    obtain ⟨a, ha, hax⟩ := List.mem_map.mp hx
    have : a.id < n := (h.1 a ha).1
    rw [hax, hxb, hbid] at this
    exact absurd this (Nat.lt_irrefl n)


/-- Collapsing helpers: an update after `set_app_status` at the same id. -/
theorem upd_set_status (db : List App) (i : Nat) (st : Status) (g2 : App → App) :
    upd (set_app_status db i st) i g2
      = upd db i (fun a => g2 { a with status := st }) :=
  upd_upd db i _ g2 (fun _ => rfl)

/-- An update after `update_app_pid` at the same id. -/
theorem upd_update_pid (db : List App) (i p : Nat) (st : Status) (g2 : App → App) :
    upd (update_app_pid db i p st) i g2
      = upd db i (fun a => g2 { a with pid := p, status := st }) :=
  upd_upd db i _ g2 (fun _ => rfl)

/-- An update after `increment_install_attempts` at the same id. -/
theorem upd_increment (db : List App) (i : Nat) (g2 : App → App) :
    upd (increment_install_attempts db i) i g2
      = upd db i (fun a => g2 { a with installAttempts := a.installAttempts + 1 }) :=
  upd_upd db i _ g2 (fun _ => rfl)

theorem set_status_as_upd (db : List App) (i : Nat) (st : Status) :
    set_app_status db i st = upd db i (fun a => { a with status := st }) := rfl

theorem update_pid_as_upd (db : List App) (i p : Nat) (st : Status) :
    update_app_pid db i p st = upd db i (fun a => { a with pid := p, status := st }) := rfl

theorem increment_as_upd (db : List App) (i : Nat) :
    increment_install_attempts db i
      = upd db i (fun a => { a with installAttempts := a.installAttempts + 1 }) := rfl

/-- Every public operation preserves the registry invariant. -/
theorem step_inv (cfg : Config) (s : Sys) (op : Op) (h : Inv s) :
    Inv (step cfg s op) := by
  rw [inv_iff_dbinv] at h ⊢
  cases op with
  | upload uid chatId fname resolved startOk =>
    simp only [step]
    by_cases hq : cfg.maxApps ≤ (list_user_apps s.db uid).length
    · cases resolved with
      | none => simpa [handle_upload, hq] using h
      | some entry => simpa [handle_upload, hq] using h
    · cases resolved with
      | none => simpa [handle_upload, hq] using h
      | some entry =>
        have hadd : DbInv (add_app s.db s.nextId uid chatId (safe_name fname)
            ("users/" ++ toString uid ++ "/app_" ++ safe_name fname) entry)
            (s.nextId + 1) := by
          apply dbinv_append_new _ _ _ rfl _ h
          intro _
          rfl
        cases startOk with
        | true =>
          simp only [handle_upload, hq, if_false]
          rw [update_pid_as_upd]
          refine dbinv_upd_of _ _ _ _ (fun _ => rfl) ?_ hadd
          intro a _ _ hst
          exact absurd hst (by simp)
        | false =>
          simp only [handle_upload, hq, if_false]
          rw [set_status_as_upd]
          refine dbinv_upd_of _ _ _ _ (fun _ => rfl) ?_ hadd
          intro a _ _ hst
          exact absurd hst (by simp)
  | start i caller startOk =>
    simp only [step]
    cases hga : get_app s.db i with
    | none => simpa [cb_start, hga] using h
    | some app =>
      by_cases hauth : authorized cfg.admins app caller
      · cases startOk with
        | true =>
          simp only [cb_start, hga, hauth, if_true]
          rw [update_pid_as_upd]
          refine dbinv_upd_of _ _ _ _ (fun _ => rfl) ?_ h
          intro a _ _ hst
          exact absurd hst (by simp)
        | false =>
          simp only [cb_start, hga, hauth, if_true]
          rw [set_status_as_upd]
          refine dbinv_upd_of _ _ _ _ (fun _ => rfl) ?_ h
          intro a _ _ hst
          exact absurd hst (by simp)
      · simpa [cb_start, hga, hauth] using h
  | stop i caller =>
    simp only [step]
    cases hga : get_app s.db i with
    | none => simpa [cmd_stop, hga] using h
    | some app =>
      by_cases hauth : authorized cfg.admins app caller
      · by_cases hpid : 0 < app.pid
        · simp only [cmd_stop, hga, hauth, hpid, if_true]
          rw [update_pid_as_upd, upd_set_status]
          refine dbinv_upd_of _ _ _ _ (fun _ => rfl) ?_ h
          intro a _ _ _
          rfl
        · simp only [cmd_stop, hga, hauth, hpid, if_true, if_false]
          rw [set_status_as_upd]
          refine dbinv_upd_of _ _ _ _ (fun _ => rfl) ?_ h
          intro a ha hai _
          show a.pid = 0
          have haapp : a = app := mem_id_unique s.db i app a h.2 hga ha hai
          rw [haapp]
          exact Nat.eq_zero_of_not_pos hpid
      · simpa [cmd_stop, hga, hauth] using h
  | delete i caller logOk folderOk =>
    simp only [step]
    cases hga : get_app s.db i with
    | none => simpa [cb_delete, hga] using h
    | some app =>
      by_cases hauth : authorized cfg.admins app caller
      · simp only [cb_delete, delete_app, hga, hauth, if_true]
        exact dbinv_filter _ _ _ h
      · simpa [cb_delete, hga, hauth] using h
  | scan i txt pipOk startOk =>
    simp only [step]
    cases hga : get_app s.db i with
    | none => exact h
    | some app =>
      by_cases hrun : app.status = Status.running
      · simp only [hrun, if_true]
        show DbInv (scan_app cfg.retries s.db i app.pid txt pipOk startOk s.nextPid).db s.nextId
        unfold scan_app
        by_cases hsig : (strContains txt "ModuleNotFoundError" || strContains txt "No module named") = true
        · rw [if_pos hsig, hga]
          by_cases hlim : cfg.retries ≤ app.installAttempts
          · simp only [hlim, if_true]
            exact h
          · simp only [hlim, if_false]
            cases hpkg : extract_pkg txt with
            | none => exact h
            | some pkg =>
              by_cases hemp : pkg = ""
              · simp only [hemp, if_true]
                exact h
              · simp only [hemp, if_false]
                by_cases hpl : 0 < app.pid
                · simp only [hpl, if_true]
                  cases pipOk with
                  | true =>
                    cases startOk with
                    | true =>
                      simp only [if_true]
                      rw [update_pid_as_upd, upd_set_status, upd_increment, upd_set_status]
                      refine dbinv_upd_of _ _ _ _ (fun _ => rfl) ?_ h
                      intro a _ _ hst
                      exact absurd hst (by simp)
                    | false =>
                      simp only [Bool.false_eq_true, if_false]
                      rw [set_status_as_upd, upd_set_status, upd_increment, upd_set_status]
                      refine dbinv_upd_of _ _ _ _ (fun _ => rfl) ?_ h
                      intro a _ _ hst
                      exact absurd hst (by simp)
                  | false =>
                    simp only [Bool.false_eq_true, if_false]
                    rw [set_status_as_upd, upd_increment, upd_set_status]
                    refine dbinv_upd_of _ _ _ _ (fun _ => rfl) ?_ h
                    intro a _ _ hst
                    exact absurd hst (by simp)
                · simp only [hpl, if_false]
                  cases pipOk with
                  | true =>
                    cases startOk with
                    | true =>
                      simp only [if_true]
                      rw [update_pid_as_upd, upd_set_status, upd_increment]
                      refine dbinv_upd_of _ _ _ _ (fun _ => rfl) ?_ h
                      intro a _ _ hst
                      exact absurd hst (by simp)
                    | false =>
                      simp only [Bool.false_eq_true, if_false]
                      rw [set_status_as_upd, upd_set_status, upd_increment]
                      refine dbinv_upd_of _ _ _ _ (fun _ => rfl) ?_ h
                      intro a _ _ hst
                      exact absurd hst (by simp)
                  | false =>
                    simp only [Bool.false_eq_true, if_false]
                    rw [set_status_as_upd, upd_increment]
                    refine dbinv_upd_of _ _ _ _ (fun _ => rfl) ?_ h
                    intro a _ _ hst
                    exact absurd hst (by simp)
        · rw [if_neg hsig]
          exact h
      · simp only [hrun, if_false]
        exact h

theorem foldl_inv (cfg : Config) (ops : List Op) (s : Sys) (h : Inv s) :
    Inv (ops.foldl (step cfg) s) := by
  induction ops generalizing s with
  | nil => exact h
  | cons op rest ih => exact ih _ (step_inv cfg s op h)

/-- The registry invariant holds in every state reachable from the empty
registry through the public operations. -/
theorem run_inv (cfg : Config) (ops : List Op) : Inv (run cfg ops) := by
  apply foldl_inv
  constructor
  · intro a ha
    cases ha
  · simp [initSys]

end HostBot

namespace HostBot

/-! ### Lookup and bound helpers for the claim theorems -/

theorem get_app_upd_self (db : List App) (i : Nat) (g : App → App) (app : App)
    (hg : ∀ a, (g a).id = a.id) (hget : get_app db i = some app) :
    get_app (upd db i g) i = some (g app) := by
  rw [get_app_upd db i i g hg, hget]
  simp [(get_app_mem db i app hget).2]

theorem get_app_append_left (db l2 : List App) (i : Nat) (a : App)
    (h : get_app db i = some a) : get_app (db ++ l2) i = some a := by
  rw [get_app_append, h]

theorem attempts_le_upd (db : List App) (j i : Nat) (g : App → App) (a a' : App)
    (hg_id : ∀ b, (g b).id = b.id)
    (hg_mono : ∀ b, b.installAttempts ≤ (g b).installAttempts)
    (h1 : get_app db i = some a) (h2 : get_app (upd db j g) i = some a') :
    a.installAttempts ≤ a'.installAttempts := by
  rw [get_app_upd db j i g hg_id, h1] at h2
  have heq : (if a.id = j then g a else a) = a' := by
    simpa using h2
  by_cases haj : a.id = j
  · rw [if_pos haj] at heq
    rw [← heq]
    exact hg_mono a
  · rw [if_neg haj] at heq
    rw [← heq]

theorem attempts_le_filter (db : List App) (q : App → Bool) (i : Nat) (a a' : App)
    (hnd : (db.map (fun x => x.id)).Nodup)
    (h1 : get_app db i = some a) (h2 : get_app (db.filter q) i = some a') :
    a.installAttempts ≤ a'.installAttempts := by
  obtain ⟨hmem, hid⟩ := get_app_mem _ _ _ h2
  have haa : a' = a :=
    mem_id_unique db i a a' hnd h1 (List.mem_of_mem_filter hmem) hid
  rw [haa]

theorem attempts_le_same (db : List App) (i : Nat) (a a' : App)
    (h1 : get_app db i = some a) (h2 : get_app db i = some a') :
    a.installAttempts ≤ a'.installAttempts := by
  rw [h1] at h2
  cases h2
  exact Nat.le_refl _

theorem cap_upd (db : List App) (j : Nat) (g : App → App) (R : Nat)
    (hcap : ∀ b ∈ db, b.installAttempts ≤ R)
    (hg : ∀ b ∈ db, b.id = j → (g b).installAttempts ≤ R) :
    ∀ b ∈ upd db j g, b.installAttempts ≤ R := by
  intro b hb
  obtain ⟨c, hc, heq⟩ := mem_upd db j g b hb
  by_cases hcj : c.id = j
  · rw [heq, if_pos hcj]
    exact hg c hc hcj
  · rw [heq, if_neg hcj]
    exact hcap c hc

theorem cap_filter (db : List App) (q : App → Bool) (R : Nat)
    (hcap : ∀ b ∈ db, b.installAttempts ≤ R) :
    ∀ b ∈ db.filter q, b.installAttempts ≤ R :=
  fun b hb => hcap b (List.mem_of_mem_filter hb)

theorem cap_append (db l2 : List App) (R : Nat)
    (hcap : ∀ b ∈ db, b.installAttempts ≤ R)
    (hl2 : ∀ b ∈ l2, b.installAttempts ≤ R) :
    ∀ b ∈ db ++ l2, b.installAttempts ≤ R := by
  intro b hb
  rcases List.mem_append.mp hb with hb | hb
  · exact hcap b hb
  · exact hl2 b hb

end HostBot

namespace HostBot

/-- Across one public operation, no surviving row's attempt counter
decreases. -/
theorem step_mono (cfg : Config) (s : Sys) (op : Op) (hinv : Inv s) :
    ∀ i a a', get_app s.db i = some a → get_app (step cfg s op).db i = some a' →
      a.installAttempts ≤ a'.installAttempts := by
  intro i a a' h1 h2
  cases op with
  | upload uid chatId fname resolved startOk =>
    simp only [step] at h2
    by_cases hq : cfg.maxApps ≤ (list_user_apps s.db uid).length
    · cases resolved with
      | none =>
        simp only [handle_upload, hq, if_true] at h2
        exact attempts_le_same s.db i a a' h1 h2
      | some entry =>
        simp only [handle_upload, hq, if_true] at h2
        exact attempts_le_same s.db i a a' h1 h2
    · cases resolved with
      | none =>
        simp only [handle_upload, hq, if_false] at h2
        exact attempts_le_same s.db i a a' h1 h2
      | some entry =>
        have h1' : get_app (add_app s.db s.nextId uid chatId (safe_name fname)
            ("users/" ++ toString uid ++ "/app_" ++ safe_name fname) entry) i = some a :=
          get_app_append_left s.db _ i a h1
        cases startOk with
        | true =>
          simp only [handle_upload, hq, if_false, if_true] at h2
          rw [update_pid_as_upd] at h2
          exact attempts_le_upd _ s.nextId i _ a a' (by intro b; rfl)
            (by intro b; exact Nat.le_refl _) h1' h2
        | false =>
          simp only [handle_upload, hq, if_false, Bool.false_eq_true] at h2
          rw [set_status_as_upd] at h2
          exact attempts_le_upd _ s.nextId i _ a a' (by intro b; rfl)
            (by intro b; exact Nat.le_refl _) h1' h2
  | start j caller startOk =>
    simp only [step] at h2
    cases hga : get_app s.db j with
    | none =>
      simp only [cb_start, hga] at h2
      exact attempts_le_same s.db i a a' h1 h2
    | some app =>
      by_cases hauth : authorized cfg.admins app caller
      · cases startOk with
        | true =>
          simp only [cb_start, hga, hauth, if_true] at h2
          rw [update_pid_as_upd] at h2
          exact attempts_le_upd _ j i _ a a' (by intro b; rfl)
            (by intro b; exact Nat.le_refl _) h1 h2
        | false =>
          simp only [cb_start, hga, hauth, if_true, Bool.false_eq_true, if_false] at h2
          rw [set_status_as_upd] at h2
          exact attempts_le_upd _ j i _ a a' (by intro b; rfl)
            (by intro b; exact Nat.le_refl _) h1 h2
      · simp only [cb_start, hga, hauth, if_false] at h2
        exact attempts_le_same s.db i a a' h1 h2
  | stop j caller =>
    simp only [step] at h2
    cases hga : get_app s.db j with
    | none =>
      simp only [cmd_stop, hga] at h2
      exact attempts_le_same s.db i a a' h1 h2
    | some app =>
      by_cases hauth : authorized cfg.admins app caller
      · by_cases hpid : 0 < app.pid
        · simp only [cmd_stop, hga, hauth, hpid, if_true] at h2
          rw [update_pid_as_upd, upd_set_status] at h2
          exact attempts_le_upd _ j i _ a a' (by intro b; rfl)
            (by intro b; exact Nat.le_refl _) h1 h2
        · simp only [cmd_stop, hga, hauth, hpid, if_true, if_false] at h2
          rw [set_status_as_upd] at h2
          exact attempts_le_upd _ j i _ a a' (by intro b; rfl)
            (by intro b; exact Nat.le_refl _) h1 h2
      · simp only [cmd_stop, hga, hauth, if_false] at h2
        exact attempts_le_same s.db i a a' h1 h2
  | delete j caller logOk folderOk =>
    simp only [step] at h2
    cases hga : get_app s.db j with
    | none =>
      simp only [cb_delete, hga] at h2
      exact attempts_le_same s.db i a a' h1 h2
    | some app =>
      by_cases hauth : authorized cfg.admins app caller
      · simp only [cb_delete, delete_app, hga, hauth, if_true] at h2
        exact attempts_le_filter s.db _ i a a' hinv.2 h1 h2
      · simp only [cb_delete, hga, hauth, if_false] at h2
        exact attempts_le_same s.db i a a' h1 h2
  | scan j txt pipOk startOk =>
    simp only [step] at h2
    cases hga : get_app s.db j with
    | none =>
      simp only [hga] at h2
      exact attempts_le_same s.db i a a' h1 h2
    | some app =>
      by_cases hrun : app.status = Status.running
      · simp only [hga, hrun, if_true] at h2
        unfold scan_app at h2
        by_cases hsig : (strContains txt "ModuleNotFoundError"
            || strContains txt "No module named") = true
        · rw [if_pos hsig, hga] at h2
          by_cases hlim : cfg.retries ≤ app.installAttempts
          · simp only [hlim, if_true] at h2
            exact attempts_le_same s.db i a a' h1 h2
          · simp only [hlim, if_false] at h2
            cases hpkg : extract_pkg txt with
            | none =>
              rw [hpkg] at h2
              exact attempts_le_same s.db i a a' h1 h2
            | some pkg =>
              rw [hpkg] at h2
              by_cases hemp : pkg = ""
              · simp only [hemp, if_true] at h2
                exact attempts_le_same s.db i a a' h1 h2
              · simp only [hemp, if_false] at h2
                by_cases hpl : 0 < app.pid
                · simp only [hpl, if_true] at h2
                  cases pipOk with
                  | true =>
                    cases startOk with
                    | true =>
                      simp only [if_true] at h2
                      rw [update_pid_as_upd, upd_set_status, upd_increment,
                        upd_set_status] at h2
                      exact attempts_le_upd _ j i _ a a' (by intro b; rfl)
                        (by intro b; exact Nat.le_succ _) h1 h2
                    | false =>
                      simp only [Bool.false_eq_true, if_false] at h2
                      rw [set_status_as_upd, upd_set_status, upd_increment,
                        upd_set_status] at h2
                      exact attempts_le_upd _ j i _ a a' (by intro b; rfl)
                        (by intro b; exact Nat.le_succ _) h1 h2
                  | false =>
                    simp only [Bool.false_eq_true, if_false] at h2
                    rw [set_status_as_upd, upd_increment, upd_set_status] at h2
                    exact attempts_le_upd _ j i _ a a' (by intro b; rfl)
                      (by intro b; exact Nat.le_succ _) h1 h2
                · simp only [hpl, if_false] at h2
                  cases pipOk with
                  | true =>
                    cases startOk with
                    | true =>
                      simp only [if_true] at h2
                      rw [update_pid_as_upd, upd_set_status, upd_increment] at h2
                      exact attempts_le_upd _ j i _ a a' (by intro b; rfl)
                        (by intro b; exact Nat.le_succ _) h1 h2
                    | false =>
                      simp only [Bool.false_eq_true, if_false] at h2
                      rw [set_status_as_upd, upd_set_status, upd_increment] at h2
                      exact attempts_le_upd _ j i _ a a' (by intro b; rfl)
                        (by intro b; exact Nat.le_succ _) h1 h2
                  | false =>
                    simp only [Bool.false_eq_true, if_false] at h2
                    rw [set_status_as_upd, upd_increment] at h2
                    exact attempts_le_upd _ j i _ a a' (by intro b; rfl)
                      (by intro b; exact Nat.le_succ _) h1 h2
        · rw [if_neg hsig] at h2
          exact attempts_le_same s.db i a a' h1 h2
      · simp only [hga, hrun, if_false] at h2
        exact attempts_le_same s.db i a a' h1 h2

end HostBot

namespace HostBot

/-- Across one public operation, no row's attempt counter can exceed the
configured retry limit (given all rows respect it beforehand). -/
theorem step_cap (cfg : Config) (s : Sys) (op : Op) (hinv : Inv s)
    (hcap : ∀ a ∈ s.db, a.installAttempts ≤ cfg.retries) :
    ∀ a ∈ (step cfg s op).db, a.installAttempts ≤ cfg.retries := by
  cases op with
  | upload uid chatId fname resolved startOk =>
    simp only [step]
    by_cases hq : cfg.maxApps ≤ (list_user_apps s.db uid).length
    · cases resolved with
      | none => simpa [handle_upload, hq] using hcap
      | some entry => simpa [handle_upload, hq] using hcap
    · cases resolved with
      | none => simpa [handle_upload, hq] using hcap
      | some entry =>
        have hadd : ∀ b ∈ add_app s.db s.nextId uid chatId (safe_name fname)
            ("users/" ++ toString uid ++ "/app_" ++ safe_name fname) entry,
            b.installAttempts ≤ cfg.retries := by
          apply cap_append _ _ _ hcap
          intro b hb
          rw [List.mem_singleton.mp hb]
          exact Nat.zero_le _
        cases startOk with
        | true =>
          simp only [handle_upload, hq, if_false, if_true]
          rw [update_pid_as_upd]
          apply cap_upd _ _ _ _ hadd
          intro b hb _
          exact hadd b hb
        | false =>
          simp only [handle_upload, hq, if_false, Bool.false_eq_true]
          rw [set_status_as_upd]
          apply cap_upd _ _ _ _ hadd
          intro b hb _
          exact hadd b hb
  | start j caller startOk =>
    simp only [step]
    cases hga : get_app s.db j with
    | none => simpa [cb_start, hga] using hcap
    | some app =>
      by_cases hauth : authorized cfg.admins app caller
      · cases startOk with
        | true =>
          simp only [cb_start, hga, hauth, if_true]
          rw [update_pid_as_upd]
          apply cap_upd _ _ _ _ hcap
          intro b hb _
          exact hcap b hb
        | false =>
          simp only [cb_start, hga, hauth, if_true, Bool.false_eq_true, if_false]
          rw [set_status_as_upd]
          apply cap_upd _ _ _ _ hcap
          intro b hb _
          exact hcap b hb
      · simpa [cb_start, hga, hauth] using hcap
  | stop j caller =>
    simp only [step]
    cases hga : get_app s.db j with
    | none => simpa [cmd_stop, hga] using hcap
    | some app =>
      by_cases hauth : authorized cfg.admins app caller
      · by_cases hpid : 0 < app.pid
        · simp only [cmd_stop, hga, hauth, hpid, if_true]
          rw [update_pid_as_upd, upd_set_status]
          apply cap_upd _ _ _ _ hcap
          intro b hb _
          exact hcap b hb
        · simp only [cmd_stop, hga, hauth, hpid, if_true, if_false]
          rw [set_status_as_upd]
          apply cap_upd _ _ _ _ hcap
          intro b hb _
          exact hcap b hb
      · simpa [cmd_stop, hga, hauth] using hcap
  | delete j caller logOk folderOk =>
    simp only [step]
    cases hga : get_app s.db j with
    | none => simpa [cb_delete, hga] using hcap
    | some app =>
      by_cases hauth : authorized cfg.admins app caller
      · simp only [cb_delete, delete_app, hga, hauth, if_true]
        exact cap_filter _ _ _ hcap
      · simpa [cb_delete, hga, hauth] using hcap
  | scan j txt pipOk startOk =>
    simp only [step]
    cases hga : get_app s.db j with
    | none => exact hcap
    | some app =>
      by_cases hrun : app.status = Status.running
      · simp only [hga, hrun, if_true]
        unfold scan_app
        by_cases hsig : (strContains txt "ModuleNotFoundError"
            || strContains txt "No module named") = true
        · rw [if_pos hsig, hga]
          by_cases hlim : cfg.retries ≤ app.installAttempts
          · simpa [hlim] using hcap
          · simp only [hlim, if_false]
            have hstep : app.installAttempts + 1 ≤ cfg.retries :=
              Nat.succ_le_of_lt (Nat.lt_of_not_le hlim)
            have hbump : ∀ b ∈ s.db, b.id = j →
                b.installAttempts + 1 ≤ cfg.retries := by
              intro b hb hbid
              have hba : b = app := mem_id_unique s.db j app b hinv.2 hga hb hbid
              rw [hba]
              exact hstep
            cases hpkg : extract_pkg txt with
            | none => exact hcap
            | some pkg =>
              by_cases hemp : pkg = ""
              · simpa [hemp] using hcap
              · simp only [hemp, if_false]
                by_cases hpl : 0 < app.pid
                · simp only [hpl, if_true]
                  cases pipOk with
                  | true =>
                    cases startOk with
                    | true =>
                      simp only [if_true]
                      rw [update_pid_as_upd, upd_set_status, upd_increment,
                        upd_set_status]
                      apply cap_upd _ _ _ _ hcap
                      intro b hb hbid
                      exact hbump b hb hbid
                    | false =>
                      simp only [Bool.false_eq_true, if_false]
                      rw [set_status_as_upd, upd_set_status, upd_increment,
                        upd_set_status]
                      apply cap_upd _ _ _ _ hcap
                      intro b hb hbid
                      exact hbump b hb hbid
                  | false =>
                    simp only [Bool.false_eq_true, if_false]
                    rw [set_status_as_upd, upd_increment, upd_set_status]
                    apply cap_upd _ _ _ _ hcap
                    intro b hb hbid
                    exact hbump b hb hbid
                · simp only [hpl, if_false]
                  cases pipOk with
                  | true =>
                    cases startOk with
                    | true =>
                      simp only [if_true]
                      rw [update_pid_as_upd, upd_set_status, upd_increment]
                      apply cap_upd _ _ _ _ hcap
                      intro b hb hbid
                      exact hbump b hb hbid
                    | false =>
                      simp only [Bool.false_eq_true, if_false]
                      rw [set_status_as_upd, upd_set_status, upd_increment]
                      apply cap_upd _ _ _ _ hcap
                      intro b hb hbid
                      exact hbump b hb hbid
                  | false =>
                    simp only [Bool.false_eq_true, if_false]
                    rw [set_status_as_upd, upd_increment]
                    apply cap_upd _ _ _ _ hcap
                    intro b hb hbid
                    exact hbump b hb hbid
        · rw [if_neg hsig]
          exact hcap
      · simp only [hga, hrun, if_false]
        exact hcap

/-- A watcher iteration over an app whose attempt counter has reached the
retry limit is a complete no-op: same registry, no signal, no installer
call, no spawn. -/
theorem scan_at_limit_noop (retries : Nat) (db : List App) (i : Nat) (app : App)
    (txt : String) (pipOk startOk : Bool) (fp : Nat)
    (hget : get_app db i = some app) (hlim : retries ≤ app.installAttempts) :
    scan_app retries db i app.pid txt pipOk startOk fp = ⟨db, [], [], []⟩ := by
  unfold scan_app
  by_cases hsig : (strContains txt "ModuleNotFoundError"
      || strContains txt "No module named") = true
  · rw [if_pos hsig, hget]
    simp [hlim]
  · rw [if_neg hsig]

end HostBot

namespace HostBot

/-! ### Claim theorems -/

/-- C1, counterexample.  The claimed invariant — at every observation point,
`pid > 0` implies status is one of Running/Installing/Restarting, and
`Stopped` implies `pid = 0` — fails on the code: upload-and-start an app
(pid 1, running), then let one watcher pass see a `ModuleNotFoundError`
window with the installer failing.  The watcher signals the process and sets
`installing`, then on installer failure sets `error` without ever clearing
the pid, leaving a row with `pid = 1 > 0` and status `error`. -/
theorem C1_counterexample :
    ¬ (∀ a ∈ (run cfgSix cexOps).db,
        (0 < a.pid → a.status = Status.running ∨ a.status = Status.installing
          ∨ a.status = Status.restarting)
        ∧ (a.status = Status.stopped → a.pid = 0)) := by
  decide

/-- C1, amended.  In every state reachable from the empty registry through
the public operations (upload/start, panel start, stop, delete, watcher
iteration): `pid > 0` implies status is one of Running, Installing,
Restarting **or Error** (the watcher's failure paths keep the stale pid),
and status Stopped still implies `pid = 0`. -/
theorem C1_amended_invariant (cfg : Config) (ops : List Op) :
    ∀ a ∈ (run cfg ops).db,
      (0 < a.pid → a.status = Status.running ∨ a.status = Status.installing
        ∨ a.status = Status.restarting ∨ a.status = Status.error)
      ∧ (a.status = Status.stopped → a.pid = 0) := by
  intro a ha
  have h := (run_inv cfg ops).1 a ha
  refine ⟨fun hpid => ?_, h.2⟩
  cases hst : a.status with
  | stopped =>
    rw [h.2 hst] at hpid
    exact absurd hpid (Nat.lt_irrefl 0)
  | running => exact Or.inl rfl
  | installing => exact Or.inr (Or.inl rfl)
  | restarting => exact Or.inr (Or.inr (Or.inl rfl))
  | error => exact Or.inr (Or.inr (Or.inr rfl))

/-- Witness for C1 (amended), at the state after one successful upload. -/
theorem C1_amended_invariant_witness :
    appW ∈ (run cfgSix [uploadOp]).db
    ∧ ((0 < appW.pid → appW.status = Status.running ∨ appW.status = Status.installing
        ∨ appW.status = Status.restarting ∨ appW.status = Status.error)
      ∧ (appW.status = Status.stopped → appW.pid = 0)) :=
  ⟨by decide, C1_amended_invariant cfgSix [uploadOp] appW (by decide)⟩

/-- C2.  `handle_upload` sanitizes the file name for the app-folder
component (`safe_name`), and that folder stays inside the owner's subtree;
but the document itself is saved to `user_folder / fname` with the **raw**
file name, so an upload named `../../../evil.py` resolves to
`/tmp/hostbot/evil.py`, outside the owner subtree `/tmp/hostbot/users/42`:
the claim's "no input can produce a path outside it" is violated by the
code. -/
theorem C2_saved_path_escapes :
    inSubtree (userSubtree 42) (upload_user_folder 42 1700000000 "../../../evil.py") = true
    ∧ inSubtree (userSubtree 42) (upload_saved_path 42 1700000000 "../../../evil.py") = false
    ∧ resolvePath (upload_saved_path 42 1700000000 "../../../evil.py")
        = ["tmp", "hostbot", "evil.py"] := by
  decide

end HostBot

namespace HostBot

/-- C3.  For an app listed as Running whose attempt counter is below the
retry limit, one watcher iteration over a trailing window containing
`ModuleNotFoundError: No module named 'widgets'` extracts exactly
`"widgets"` (quoted form, scanning from the most recent line backward),
invokes the installer exactly once with that name, and increments the
app's attempt counter by exactly 1 — whatever the installer and restart
outcomes are. -/
theorem C3_scan_extracts_and_installs_once (retries : Nat) (db : List App)
    (i : Nat) (app : App) (pipOk startOk : Bool) (freshPid : Nat)
    (hget : get_app db i = some app) (hrun : app.status = Status.running)
    (hlt : app.installAttempts < retries) :
    extract_pkg widgetsLog = some "widgets"
    ∧ (scan_app retries db i app.pid widgetsLog pipOk startOk freshPid).installs
        = ["widgets"]
    ∧ ∃ a', get_app (scan_app retries db i app.pid widgetsLog pipOk startOk freshPid).db i
        = some a' ∧ a'.installAttempts = app.installAttempts + 1 := by
  have hex : extract_pkg widgetsLog = some "widgets" := by decide
  have hsig : (strContains widgetsLog "ModuleNotFoundError"
      || strContains widgetsLog "No module named") = true := by decide
  have hlim : ¬ retries ≤ app.installAttempts := Nat.not_le_of_lt hlt
  have hemp : ¬ ("widgets" = "") := by decide
  refine ⟨hex, ?_⟩
  unfold scan_app
  rw [if_pos hsig, hget, hex]
  simp only [hlim, if_false, hemp]
  have h1 := get_app_upd_self db i
    (fun a => { a with status := Status.installing }) app (by intro b; rfl) hget
  have h2i := get_app_upd_self _ i
    (fun a => { a with installAttempts := a.installAttempts + 1 }) _ (by intro b; rfl) h1
  have h2n := get_app_upd_self db i
    (fun a => { a with installAttempts := a.installAttempts + 1 }) app (by intro b; rfl) hget
  by_cases hpl : 0 < app.pid
  · simp only [hpl, if_true]
    cases pipOk with
    | true =>
      have h3 := get_app_upd_self _ i
        (fun a => { a with status := Status.restarting }) _ (by intro b; rfl) h2i
      cases startOk with
      | true =>
        have h4 := get_app_upd_self _ i
          (fun a => { a with pid := freshPid, status := Status.running }) _
          (by intro b; rfl) h3
        exact ⟨by trivial, _, h4, rfl⟩
      | false =>
        have h4 := get_app_upd_self _ i
          (fun a => { a with status := Status.error }) _ (by intro b; rfl) h3
        exact ⟨by trivial, _, h4, rfl⟩
    | false =>
      have h3 := get_app_upd_self _ i
        (fun a => { a with status := Status.error }) _ (by intro b; rfl) h2i
      exact ⟨by trivial, _, h3, rfl⟩
  · simp only [hpl, if_false]
    cases pipOk with
    | true =>
      have h3 := get_app_upd_self _ i
        (fun a => { a with status := Status.restarting }) _ (by intro b; rfl) h2n
      cases startOk with
      | true =>
        have h4 := get_app_upd_self _ i
          (fun a => { a with pid := freshPid, status := Status.running }) _
          (by intro b; rfl) h3
        exact ⟨by trivial, _, h4, rfl⟩
      | false =>
        have h4 := get_app_upd_self _ i
          (fun a => { a with status := Status.error }) _ (by intro b; rfl) h3
        exact ⟨by trivial, _, h4, rfl⟩
    | false =>
      have h3 := get_app_upd_self _ i
        (fun a => { a with status := Status.error }) _ (by intro b; rfl) h2n
      exact ⟨by trivial, _, h3, rfl⟩

/-- Witness for C3: a running app with pid 5 and counter 0 against limit 1,
installer and restart succeeding. -/
theorem C3_witness :
    get_app dbW 1 = some appRun ∧ appRun.status = Status.running
    ∧ appRun.installAttempts < 1
    ∧ (extract_pkg widgetsLog = some "widgets"
      ∧ (scan_app 1 dbW 1 appRun.pid widgetsLog true true 6).installs = ["widgets"]
      ∧ ∃ a', get_app (scan_app 1 dbW 1 appRun.pid widgetsLog true true 6).db 1
          = some a' ∧ a'.installAttempts = appRun.installAttempts + 1) :=
  ⟨by decide, by decide, by decide,
    C3_scan_extracts_and_installs_once 1 dbW 1 appRun true true 6
      (by decide) (by decide) (by decide)⟩

/-- C4.  Given the registry invariant and all counters at or below the
configured retry limit: (1) across any public operation no surviving row's
`installAttempts` decreases; (2) after the operation every counter is still
at or below the limit; (3) once a row's counter has reached the limit, a
watcher iteration over that app — whatever the error text — changes
nothing: same registry, no signal, no installer call, no spawn. -/
theorem C4_attempts_monotone_capped (cfg : Config) (s : Sys) (op : Op)
    (hinv : Inv s) (hcap : ∀ a ∈ s.db, a.installAttempts ≤ cfg.retries) :
    (∀ i a a', get_app s.db i = some a →
        get_app (step cfg s op).db i = some a' →
        a.installAttempts ≤ a'.installAttempts)
    ∧ (∀ a ∈ (step cfg s op).db, a.installAttempts ≤ cfg.retries)
    ∧ (∀ i app txt pipOk startOk fp, get_app s.db i = some app →
        cfg.retries ≤ app.installAttempts →
        scan_app cfg.retries s.db i app.pid txt pipOk startOk fp
          = ⟨s.db, [], [], []⟩) :=
  ⟨step_mono cfg s op hinv, step_cap cfg s op hinv hcap,
    fun i app txt pipOk startOk fp hget hlim =>
      scan_at_limit_noop cfg.retries s.db i app txt pipOk startOk fp hget hlim⟩

/-- Witness for C4: the bound part at a concrete state and operation. -/
theorem C4_witness :
    Inv sysW ∧ (∀ a ∈ sysW.db, a.installAttempts ≤ cfgSix.retries)
    ∧ (∀ a ∈ (step cfgSix sysW (Op.scan 1 widgetsLog true true)).db,
        a.installAttempts ≤ cfgSix.retries) :=
  ⟨by decide, by decide,
    (C4_attempts_monotone_capped cfgSix sysW (Op.scan 1 widgetsLog true true)
      (by decide) (by decide)).2.1⟩

end HostBot

namespace HostBot

theorem cmd_stop_eq_of_pid_zero (admins : List Nat) (db : List App) (caller i : Nat)
    (app : App) (hget : get_app db i = some app)
    (hauth : authorized admins app caller) (hpz : app.pid = 0) :
    cmd_stop admins db caller i = ⟨set_app_status db i Status.stopped, []⟩ := by
  unfold cmd_stop
  rw [hget]
  simp [hauth, hpz]

theorem cmd_stop_eq_of_pid_pos (admins : List Nat) (db : List App) (caller i : Nat)
    (app : App) (hget : get_app db i = some app)
    (hauth : authorized admins app caller) (hpp : 0 < app.pid) :
    cmd_stop admins db caller i
      = ⟨update_app_pid (set_app_status db i Status.stopped) i 0 Status.stopped,
          [app.pid]⟩ := by
  unfold cmd_stop
  rw [hget]
  simp [hauth, hpp]

/-- C5.  For an app owned by the caller, `/stop` twice in a row leaves the
row with status Stopped and pid 0 after both calls, and the second call
(on the already-stopped app) signals no process and raises no error (the
handler has no failure path: it answers "App is not running"). -/
theorem C5_stop_idempotent (admins : List Nat) (db : List App) (i caller : Nat)
    (app : App) (hget : get_app db i = some app) (hown : app.userId = caller) :
    (∃ a1, get_app (cmd_stop admins db caller i).db i = some a1
      ∧ a1.status = Status.stopped ∧ a1.pid = 0)
    ∧ (∃ a2, get_app (cmd_stop admins (cmd_stop admins db caller i).db caller i).db i
      = some a2 ∧ a2.status = Status.stopped ∧ a2.pid = 0)
    ∧ (cmd_stop admins (cmd_stop admins db caller i).db caller i).signals = [] := by
  have hauth : authorized admins app caller := Or.inl hown
  by_cases hpid : 0 < app.pid
  · have e1 := cmd_stop_eq_of_pid_pos admins db caller i app hget hauth hpid
    have hg1 : get_app (cmd_stop admins db caller i).db i
        = some { app with pid := 0, status := Status.stopped } := by
      rw [e1]
      have h1 := get_app_upd_self db i
        (fun a => { a with status := Status.stopped }) app (by intro b; rfl) hget
      exact get_app_upd_self _ i
        (fun a => { a with pid := 0, status := Status.stopped })
        { app with status := Status.stopped } (by intro b; rfl) h1
    have e2 := cmd_stop_eq_of_pid_zero admins (cmd_stop admins db caller i).db caller i
      { app with pid := 0, status := Status.stopped } hg1 (Or.inl hown) rfl
    have hg2 : get_app (cmd_stop admins (cmd_stop admins db caller i).db caller i).db i
        = some { app with pid := 0, status := Status.stopped } := by
      rw [e2]
      exact get_app_upd_self _ i
        (fun a => { a with status := Status.stopped })
        { app with pid := 0, status := Status.stopped } (by intro b; rfl) hg1
    exact ⟨⟨_, hg1, rfl, rfl⟩, ⟨_, hg2, rfl, rfl⟩, by rw [e2]⟩
  · have hpz : app.pid = 0 := Nat.eq_zero_of_not_pos hpid
    have e1 := cmd_stop_eq_of_pid_zero admins db caller i app hget hauth hpz
    have hg1 : get_app (cmd_stop admins db caller i).db i
        = some { app with status := Status.stopped } := by
      rw [e1]
      exact get_app_upd_self db i
        (fun a => { a with status := Status.stopped }) app (by intro b; rfl) hget
    have e2 := cmd_stop_eq_of_pid_zero admins (cmd_stop admins db caller i).db caller i
      { app with status := Status.stopped } hg1 (Or.inl hown) hpz
    have hg2 : get_app (cmd_stop admins (cmd_stop admins db caller i).db caller i).db i
        = some { app with status := Status.stopped } := by
      rw [e2]
      exact get_app_upd_self _ i
        (fun a => { a with status := Status.stopped })
        { app with status := Status.stopped } (by intro b; rfl) hg1
    exact ⟨⟨_, hg1, rfl, hpz⟩, ⟨_, hg2, rfl, hpz⟩, by rw [e2]⟩

/-- Witness for C5: stopping running app 1 (owner 7) twice. -/
theorem C5_witness :
    get_app dbW 1 = some appRun ∧ appRun.userId = 7
    ∧ ((∃ a1, get_app (cmd_stop [] dbW 7 1).db 1 = some a1
        ∧ a1.status = Status.stopped ∧ a1.pid = 0)
      ∧ (∃ a2, get_app (cmd_stop [] (cmd_stop [] dbW 7 1).db 7 1).db 1
        = some a2 ∧ a2.status = Status.stopped ∧ a2.pid = 0)
      ∧ (cmd_stop [] (cmd_stop [] dbW 7 1).db 7 1).signals = []) :=
  ⟨by decide, by decide,
    C5_stop_idempotent [] dbW 1 7 appRun (by decide) (by decide)⟩

/-- C6.  When the owner already has `MAX_APPS_PER_USER` or more apps, an
upload is rejected before any registry or process action: the app table,
live process set and both counters are unchanged, the only touched state is
the idempotent `INSERT OR IGNORE` user registration — a no-op whenever the
owner is already registered (which holds for any owner who has an app). -/
theorem C6_quota_rejection (cfg : Config) (s : Sys) (uid chatId : Nat)
    (fname : String) (resolved : Option String) (startOk : Bool)
    (hq : cfg.maxApps ≤ (list_user_apps s.db uid).length) :
    (step cfg s (Op.upload uid chatId fname resolved startOk)).db = s.db
    ∧ (step cfg s (Op.upload uid chatId fname resolved startOk)).live = s.live
    ∧ (step cfg s (Op.upload uid chatId fname resolved startOk)).nextPid = s.nextPid
    ∧ (step cfg s (Op.upload uid chatId fname resolved startOk)).nextId = s.nextId
    ∧ (step cfg s (Op.upload uid chatId fname resolved startOk)).users
        = register_user s.users uid
    ∧ (uid ∈ s.users →
        (step cfg s (Op.upload uid chatId fname resolved startOk)).users = s.users) := by
  refine ⟨?_, ?_, ?_, ?_, ?_, ?_⟩
  · cases resolved <;> simp [step, handle_upload, hq]
  · cases resolved <;> simp [step, handle_upload, hq]
  · cases resolved <;> simp [step, handle_upload, hq]
  · cases resolved <;> simp [step, hq]
  · cases resolved <;> simp [step, handle_upload, hq]
  · intro hmem
    cases resolved <;> simp [step, handle_upload, hq, register_user, hmem]

/-- Witness for C6: user 7 already has 1 app under a quota of 1. -/
theorem C6_witness :
    cfgOne.maxApps ≤ (list_user_apps sysW.db 7).length
    ∧ (step cfgOne sysW (Op.upload 7 7 "more.py" (some "more.py") true)).db = sysW.db
    ∧ (step cfgOne sysW (Op.upload 7 7 "more.py" (some "more.py") true)).users
        = sysW.users :=
  ⟨by decide,
    (C6_quota_rejection cfgOne sysW 7 7 "more.py" (some "more.py") true (by decide)).1,
    (C6_quota_rejection cfgOne sysW 7 7 "more.py" (some "more.py") true (by decide)).2.2.2.2.2
      (by decide)⟩

/-- C7.  `delete_app` on an existing id removes the registry row first and
unconditionally: the call reports success, a subsequent `get_app` returns
nothing, the app no longer appears in the owner listing, and the registry
outcome is identical whether the best-effort log and folder cleanup succeed
or fail. -/
theorem C7_delete_authoritative (db : List App) (i : Nat) (app : App)
    (logOk folderOk : Bool) (hget : get_app db i = some app) :
    (delete_app db i logOk folderOk).deleted = true
    ∧ get_app (delete_app db i logOk folderOk).db i = none
    ∧ (∀ uid, ∀ b ∈ list_user_apps (delete_app db i logOk folderOk).db uid, b.id ≠ i)
    ∧ (delete_app db i logOk folderOk).db = (delete_app db i true true).db
    ∧ (delete_app db i logOk folderOk).deleted = (delete_app db i true true).deleted := by
  have e : ∀ lo fo, delete_app db i lo fo
      = ⟨db.filter (fun a => a.id != i), true, lo, fo⟩ := by
    intro lo fo
    simp only [delete_app, hget]
  refine ⟨by rw [e], ?_, ?_, by rw [e, e], by rw [e, e]⟩
  · rw [e]
    exact get_app_filter_ne db i
  · intro uid b hb
    rw [e] at hb
    have hb' : b ∈ db.filter (fun a => a.id != i) :=
      List.mem_of_mem_filter hb
    have := (List.mem_filter.mp hb').2
    simpa using this

/-- Witness for C7: deleting app 1 with both cleanup actions failing. -/
theorem C7_witness :
    get_app dbW 1 = some appRun
    ∧ ((delete_app dbW 1 false false).deleted = true
      ∧ get_app (delete_app dbW 1 false false).db 1 = none
      ∧ (∀ uid, ∀ b ∈ list_user_apps (delete_app dbW 1 false false).db uid, b.id ≠ 1)
      ∧ (delete_app dbW 1 false false).db = (delete_app dbW 1 true true).db
      ∧ (delete_app dbW 1 false false).deleted = (delete_app dbW 1 true true).deleted) :=
  ⟨by decide, C7_delete_authoritative dbW 1 appRun false false (by decide)⟩

/-- C8.  For every handler on an existing app (panel start, stop, logs,
delete, info), a caller who is neither the owner nor an administrator is
refused before anything happens: the registry is unchanged, no process is
spawned or signalled, the deletion reports failure, and no log content or
process info is returned. -/
theorem C8_ownership_guard (admins : List Nat) (db : List App) (caller i fp : Nat)
    (startOk logOk folderOk : Bool) (content : Option String) (app : App)
    (hget : get_app db i = some app) (hne : app.userId ≠ caller)
    (hnad : caller ∉ admins) :
    cb_start admins db caller i fp startOk = ⟨db, []⟩
    ∧ cmd_stop admins db caller i = ⟨db, []⟩
    ∧ cmd_logs admins db caller i content = none
    ∧ cb_delete admins db caller i logOk folderOk = ⟨db, [], false⟩
    ∧ cb_info admins db caller i = none := by
  have hnauth : ¬ authorized admins app caller := by
    intro h
    cases h with
    | inl h => exact hne h
    | inr h => exact hnad h
  refine ⟨?_, ?_, ?_, ?_, ?_⟩
  · simp [cb_start, hget, hnauth]
  · simp [cmd_stop, hget, hnauth]
  · simp [cmd_logs, hget, hnauth]
  · simp [cb_delete, hget, hnauth]
  · simp [cb_info, hget, hnauth]

/-- Witness for C8: caller 9 (not an administrator) against app 1 owned
by user 7. -/
theorem C8_witness :
    get_app dbW 1 = some appRun ∧ appRun.userId ≠ 9 ∧ (9 : Nat) ∉ ([] : List Nat)
    ∧ (cb_start [] dbW 9 1 6 true = ⟨dbW, []⟩
      ∧ cmd_stop [] dbW 9 1 = ⟨dbW, []⟩
      ∧ cmd_logs [] dbW 9 1 (some "secret") = none
      ∧ cb_delete [] dbW 9 1 true true = ⟨dbW, [], false⟩
      ∧ cb_info [] dbW 9 1 = none) :=
  ⟨by decide, by decide, by decide,
    C8_ownership_guard [] dbW 9 1 6 true true true (some "secret") appRun
      (by decide) (by decide) (by decide)⟩

end HostBot

namespace HostBot

/-- C9, counterexample.  The lifecycle-mutating operations are **not**
mutually exclusive: the `/stop` handler can run during the watcher's
installer await (yield position 1), and the remediation then overrides it —
the interleaved execution ends with the app `running` on the fresh pid,
while **both** serial orders (stop before the watcher pass, in which case
the stopped app is never listed and no remediation runs; or the full
remediation followed by stop) end `stopped` with pid 0.  No per-app lock
exists in the code. -/
theorem C9_not_serializable :
    (Race.runInterleave Race.raceInit 1 2 1 true true).reg.status = Status.running
    ∧ (Race.stopOp Race.raceInit).reg.status = Status.stopped
    ∧ (Race.stopOp (Race.remediate Race.raceInit 1 2 true true)).reg.status
        = Status.stopped
    ∧ (Race.runInterleave Race.raceInit 1 2 1 true true).reg
        ≠ (Race.stopOp Race.raceInit).reg
    ∧ (Race.runInterleave Race.raceInit 1 2 1 true true).reg
        ≠ (Race.stopOp (Race.remediate Race.raceInit 1 2 true true)).reg := by
  decide

/-- C9, amended.  Although stop and remediation interleave without mutual
exclusion, on the single-threaded cooperative event loop no interleaving of
one `/stop` with one watcher remediation ends with a stale pid: in the final
registry state a positive pid always belongs to a live process, `stopped`
records pid 0, and `running` records a positive pid. -/
theorem C9_no_stale_pid (P Q k pos : Nat) (pipOk startOk : Bool)
    (hP : 0 < P) (hQ : 0 < Q) (hPQ : P ≠ Q) (hpos : pos ≤ 3) :
    Race.Consistent
      (Race.runInterleave ⟨⟨P, Status.running, k⟩, [P]⟩ P Q pos pipOk startOk) := by
  have hQP : Q ≠ P := Ne.symm hPQ
  interval_cases pos <;> cases pipOk <;> cases startOk <;>
    simp_all [Race.runInterleave, Race.stopOp, Race.segStopInstall, Race.kill,
      Race.segRestarting, Race.segStart, Race.segError, Race.Consistent]

/-- Witness for C9 (amended): the interleaving of the counterexample is
still pid-consistent. -/
theorem C9_no_stale_pid_witness :
    0 < 1 ∧ 0 < 2 ∧ (1 : Nat) ≠ 2 ∧ (1 : Nat) ≤ 3
    ∧ Race.Consistent
        (Race.runInterleave ⟨⟨1, Status.running, 0⟩, [1]⟩ 1 2 1 true true) :=
  ⟨by decide, by decide, by decide, by decide,
    C9_no_stale_pid 1 2 0 1 true true (by decide) (by decide) (by decide) (by decide)⟩

/-- C10.  The panel `start:` callback performs no status check: on an app
already recorded Running with live pid `p`, it spawns a new process, records
the fresh pid as Running, and never signals `p` — the old process stays in
the live set but is no longer referenced by the registry. -/
theorem C10_start_overwrites_pid (cfg : Config) (s : Sys) (i p caller : Nat)
    (app : App) (hget : get_app s.db i = some app)
    (hrun : app.status = Status.running) (hpid : app.pid = p) (hp : 0 < p)
    (hlive : p ∈ s.live) (hfresh : p ≠ s.nextPid) (hown : app.userId = caller) :
    ∃ a', get_app (step cfg s (Op.start i caller true)).db i = some a'
      ∧ a'.pid = s.nextPid ∧ a'.status = Status.running ∧ a'.pid ≠ p
      ∧ p ∈ (step cfg s (Op.start i caller true)).live
      ∧ s.nextPid ∈ (step cfg s (Op.start i caller true)).live := by
  have hauth : authorized cfg.admins app caller := Or.inl hown
  have hdb : (step cfg s (Op.start i caller true)).db
      = update_app_pid s.db i s.nextPid Status.running := by
    simp only [step, cb_start, hget, hauth, if_true]
  have hlv : (step cfg s (Op.start i caller true)).live = s.live ++ [s.nextPid] := by
    simp only [step, cb_start, hget, hauth, if_true]
  refine ⟨{ app with pid := s.nextPid, status := Status.running }, ?_, rfl, rfl,
    Ne.symm hfresh, ?_, ?_⟩
  · rw [hdb]
    exact get_app_upd_self s.db i
      (fun a => { a with pid := s.nextPid, status := Status.running }) app
      (by intro b; rfl) hget
  · rw [hlv]
    exact List.mem_append_left _ hlive
  · rw [hlv]
    exact List.mem_append_right _ (List.mem_singleton_self _)

/-- Witness for C10: starting the already-running app 1 (pid 5) spawns
pid 6 and leaves pid 5 alive and untracked. -/
theorem C10_witness :
    get_app sysW.db 1 = some appRun ∧ appRun.status = Status.running
    ∧ appRun.pid = 5 ∧ (0 : Nat) < 5 ∧ (5 : Nat) ∈ sysW.live ∧ (5 : Nat) ≠ sysW.nextPid
    ∧ appRun.userId = 7
    ∧ ∃ a', get_app (step cfgSix sysW (Op.start 1 7 true)).db 1 = some a'
      ∧ a'.pid = sysW.nextPid ∧ a'.status = Status.running ∧ a'.pid ≠ 5
      ∧ (5 : Nat) ∈ (step cfgSix sysW (Op.start 1 7 true)).live
      ∧ sysW.nextPid ∈ (step cfgSix sysW (Op.start 1 7 true)).live :=
  ⟨by decide, by decide, by decide, by decide, by decide, by decide, by decide,
    C10_start_overwrites_pid cfgSix sysW 1 5 7 appRun (by decide) (by decide)
      (by decide) (by decide) (by decide) (by decide) (by decide)⟩

end HostBot
